import Mathlib

/-!
Verification of the conversation/message store in `src/chat_board.py`
(classes `Message`, `Conversation`, `ChatBoard`).

Shallow embedding notes.
* JSON values are modelled by the inductive `Json`; numbers are modelled
  as integers (the store only ever produces integer ids and counters).
* Python attribute values that may hold arbitrary JSON after a load are
  typed `Json`; `current_user` is only ever `None` or a Python string, so
  it is `Option String`.
* Python exceptions are modelled with `Except PyErr`; the `try` block of
  `load_data` catches exactly `jsonDecodeError` and `keyError`, as the
  source does.
* File writes performed by a call are returned explicitly as a list of
  the JSON documents written (`save_data` output); the storage path never
  changes and is omitted.
* Current wall-clock time (`datetime.datetime.now().strftime(...)`) is an
  explicit `now : String` parameter.
-/

/-- A JSON value as produced by `json.load` / consumed by `json.dump`.
Numbers are restricted to integers, which covers every value the store
itself writes. Objects are association lists with distinct keys. -/
inductive Json where
  | null
  | bool (b : Bool)
  | num (n : Int)
  | str (s : String)
  | arr (elems : List Json)
  | obj (fields : List (String × Json))
deriving Repr

/-- Python truthiness of a JSON value (`None`, `False`, `0`, `""`, `[]`,
and the empty dict are falsy). -/
def Json.isTruthy : Json → Bool
  | .null => false
  | .bool b => b
  | .num n => n != 0
  | .str s => s != ""
  | .arr elems => !elems.isEmpty
  | .obj fields => !fields.isEmpty

/-- Python `x == i` for an `int` right-hand side `i`: numbers compare by
value, `True`/`False` compare as `1`/`0`, every other value is unequal. -/
def eqNum (j : Json) (i : Int) : Bool :=
  match j with
  | .num n => n == i
  | .bool b => (if b then (1 : Int) else 0) == i
  | _ => false

/-- Strict numeric comparison on JSON values; used to state that issued
ids are strictly increasing. -/
def jltb (a b : Json) : Bool :=
  match a, b with
  | .num x, .num y => x < y
  | _, _ => false

/-- The Python exceptions that can arise in the store code. -/
inductive PyErr where
  | jsonDecodeError
  | keyError
  | typeError
  | attributeError
deriving Repr, DecidableEq

/-- Python `x += 1`: succeeds on numbers (and on booleans, which are
ints), raises `TypeError` otherwise. -/
def pyAddOne : Json → Except PyErr Json
  | .num n => .ok (.num (n + 1))
  | .bool b => .ok (.num ((if b then (1 : Int) else 0) + 1))
  | _ => .error .typeError

/-- First binding of key `k` in an association list (dict lookup). -/
def dictFind : List (String × Json) → String → Option Json
  | [], _ => none
  | (k, v) :: rest, key => if k = key then some v else dictFind rest key

/-- Python `d.get(key, default)` on a dict. -/
def dictGetD (fields : List (String × Json)) (key : String) (default : Json) : Json :=
  (dictFind fields key).getD default

/-- Python `data[key]`: `KeyError` when the key is missing from a dict,
`TypeError` when `data` is not a dict at all. -/
def pySubscript (data : Json) (key : String) : Except PyErr Json :=
  match data with
  | .obj fields =>
    match dictFind fields key with
    | some v => .ok v
    | none => .error .keyError
  | _ => .error .typeError

/-- Python iteration `for x in data`: lists yield elements, strings yield
one-character strings, dicts yield their keys; other values raise
`TypeError`. -/
def pyIter : Json → Except PyErr (List Json)
  | .arr elems => .ok elems
  | .str s => .ok (s.toList.map (fun c => Json.str (String.mk [c])))
  | .obj fields => .ok (fields.map (fun p => Json.str p.1))
  | _ => .error .typeError

/-- A Python list comprehension `[f x for x in xs]`: evaluated left to
right, the first exception aborts the whole comprehension. -/
def mapExcept (f : α → Except PyErr β) : List α → Except PyErr (List β)
  | [] => .ok []
  | x :: xs =>
    match f x with
    | .error e => .error e
    | .ok y =>
      match mapExcept f xs with
      | .error e => .error e
      | .ok ys => .ok (y :: ys)

/-- `Message` (chat_board.py lines 13-36): author, content, timestamp. -/
structure Message where
  author : Json
  content : Json
  timestamp : Json
deriving Repr

/-- `Conversation` (chat_board.py lines 39-71). -/
structure Conversation where
  title : Json
  conversation_id : Json
  created_at : Json
  messages : List Message
deriving Repr

/-- The mutable state of a `ChatBoard` (chat_board.py lines 77-81); the
constant `storage_file` path is omitted. -/
structure ChatBoard where
  conversations : List Conversation
  current_user : Option String
  next_conversation_id : Json
deriving Repr

/-- `Message.to_dict`. -/
def Message.to_dict (m : Message) : Json :=
  .obj [("author", m.author), ("content", m.content), ("timestamp", m.timestamp)]

/-- `Message.from_dict` followed by `Message.__init__`: the three fields
are subscripted in order; the constructor replaces a falsy timestamp by
the current time (`timestamp or datetime...now().strftime(...)`). -/
def Message.from_dict (now : String) (data : Json) : Except PyErr Message :=
  match pySubscript data "author" with
  | .error e => .error e
  | .ok a =>
    match pySubscript data "content" with
    | .error e => .error e
    | .ok c =>
      match pySubscript data "timestamp" with
      | .error e => .error e
      | .ok t => .ok { author := a, content := c,
                       timestamp := if t.isTruthy then t else .str now }

/-- `Conversation.to_dict`. -/
def Conversation.to_dict (c : Conversation) : Json :=
  .obj [("title", c.title), ("conversation_id", c.conversation_id),
        ("created_at", c.created_at),
        ("messages", .arr (c.messages.map Message.to_dict))]

/-- `Conversation.from_dict`: builds the conversation from `title` and
`conversation_id`, then overwrites `created_at` and `messages` from the
dict, parsing each message record in order. -/
def Conversation.from_dict (now : String) (data : Json) : Except PyErr Conversation :=
  match pySubscript data "title" with
  | .error e => .error e
  | .ok t =>
    match pySubscript data "conversation_id" with
    | .error e => .error e
    | .ok cid =>
      match pySubscript data "created_at" with
      | .error e => .error e
      | .ok ca =>
        match pySubscript data "messages" with
        | .error e => .error e
        | .ok msgsJson =>
          match pyIter msgsJson with
          | .error e => .error e
          | .ok items =>
            match mapExcept (Message.from_dict now) items with
            | .error e => .error e
            | .ok msgs => .ok { title := t, conversation_id := cid,
                                created_at := ca, messages := msgs }

/-- `ChatBoard.save_data`: the JSON document written to the storage file. -/
def ChatBoard.save_data (b : ChatBoard) : Json :=
  .obj [("conversations", .arr (b.conversations.map Conversation.to_dict)),
        ("next_conversation_id", b.next_conversation_id)]

/-- The contents of the storage file when a `ChatBoard` is constructed. -/
inductive FileState where
  | absent
  | unparseable
  | parsed (data : Json)

/-- The body of the `try` block in `ChatBoard.load_data`: `data.get`
raises `AttributeError` unless the parsed document is a dict; the
conversation records are parsed left to right. Returns the new
`conversations` list and `next_conversation_id` value. -/
def ChatBoard.loadParsed (now : String) (data : Json) :
    Except PyErr (List Conversation × Json) :=
  match data with
  | .obj fields =>
    match pyIter (dictGetD fields "conversations" (.arr [])) with
    | .error e => .error e
    | .ok items =>
      match mapExcept (Conversation.from_dict now) items with
      | .error e => .error e
      | .ok convs => .ok (convs, dictGetD fields "next_conversation_id" (.num 1))
  | _ => .error .attributeError

/-- `ChatBoard.load_data` acting on the state `b` left by `__init__`:
a missing file is ignored; `json.JSONDecodeError` and `KeyError` are
caught, printing a warning and resetting `conversations` to `[]`; every
other exception propagates out of the constructor. -/
def ChatBoard.load_data (now : String) (fs : FileState) (b : ChatBoard) :
    Except PyErr ChatBoard :=
  match fs with
  | .absent => .ok b
  | .unparseable => .ok { b with conversations := [] }
  | .parsed data =>
    match ChatBoard.loadParsed now data with
    | .ok (convs, nid) =>
      .ok { b with conversations := convs, next_conversation_id := nid }
    | .error .jsonDecodeError => .ok { b with conversations := [] }
    | .error .keyError => .ok { b with conversations := [] }
    | .error e => .error e

/-- `ChatBoard.__init__`: defaults, then `load_data`. -/
def ChatBoard.init (now : String) (fs : FileState) : Except PyErr ChatBoard :=
  ChatBoard.load_data now fs
    { conversations := [], current_user := none, next_conversation_id := .num 1 }

/-- `ChatBoard.set_username`: assigns `current_user`; performs no file
write (the second component lists the writes of the call). -/
def ChatBoard.set_username (b : ChatBoard) (username : String) :
    ChatBoard × List Json :=
  ({ b with current_user := some username }, [])

/-- `ChatBoard.create_conversation`: builds the conversation with the
current counter value, increments the counter (`+= 1` may raise if the
counter was loaded as a non-number), appends, saves, and returns the new
conversation together with the new state and the files written. -/
def ChatBoard.create_conversation (now : String) (b : ChatBoard) (title : String) :
    Except PyErr (Conversation × ChatBoard × List Json) :=
  let conversation : Conversation :=
    { title := .str title, conversation_id := b.next_conversation_id,
      created_at := .str now, messages := [] }
  match pyAddOne b.next_conversation_id with
  | .error e => .error e
  | .ok nid =>
    let b2 : ChatBoard :=
      { b with conversations := b.conversations ++ [conversation],
               next_conversation_id := nid }
    .ok (conversation, b2, [ChatBoard.save_data b2])

/-- `ChatBoard.get_conversation`: first conversation whose id equals the
given integer, if any. -/
def ChatBoard.get_conversation (b : ChatBoard) (conversation_id : Int) :
    Option Conversation :=
  b.conversations.find? (fun conv => eqNum conv.conversation_id conversation_id)

/-- `ChatBoard.list_conversations`. -/
def ChatBoard.list_conversations (b : ChatBoard) : List Conversation :=
  b.conversations

/-- Remove the first element satisfying `p` (the `pop(i)` at the first
matching index in `delete_conversation`). -/
def removeFirst (p : Conversation → Bool) : List Conversation → List Conversation
  | [] => []
  | c :: cs => if p c then cs else c :: removeFirst p cs

/-- `ChatBoard.delete_conversation`: pops the first conversation with a
matching id and saves; returns whether one was found, the new state, and
the files written. -/
def ChatBoard.delete_conversation (b : ChatBoard) (conversation_id : Int) :
    Bool × ChatBoard × List Json :=
  if b.conversations.any (fun conv => eqNum conv.conversation_id conversation_id) then
    let remaining :=
      removeFirst (fun conv => eqNum conv.conversation_id conversation_id)
        b.conversations
    let b2 : ChatBoard := { b with conversations := remaining }
    (true, b2, [ChatBoard.save_data b2])
  else
    (false, b, [])

/-- Append a message to the first conversation satisfying `p`
(the in-place `conversation.add_message` on the object returned by
`get_conversation`). -/
def appendToFirst (p : Conversation → Bool) (m : Message) :
    List Conversation → List Conversation
  | [] => []
  | c :: cs =>
    if p c then { c with messages := c.messages ++ [m] } :: cs
    else c :: appendToFirst p m cs

/-- `ChatBoard.post_message`: requires a conversation with the given id
and a truthy `current_user` (a set, non-empty username); on success it
appends a freshly timestamped message to that conversation and saves. -/
def ChatBoard.post_message (now : String) (b : ChatBoard)
    (conversation_id : Int) (content : String) : Bool × ChatBoard × List Json :=
  match ChatBoard.get_conversation b conversation_id, b.current_user with
  | some _, some u =>
    if u = "" then (false, b, [])
    else
      let message : Message :=
        { author := .str u, content := .str content, timestamp := .str now }
      let updated :=
        appendToFirst (fun conv => eqNum conv.conversation_id conversation_id)
          message b.conversations
      let b2 : ChatBoard := { b with conversations := updated }
      (true, b2, [ChatBoard.save_data b2])
  | _, _ => (false, b, [])

/-- A call made by the driver against one `ChatBoard`, for stating the
id-allocation invariant over interleaved create and delete calls. -/
inductive Op where
  | create (title : String)
  | delete (conversation_id : Int)

/-- Run a sequence of create/delete calls, collecting the
`conversation_id` of every conversation returned by
`create_conversation`. A raised exception aborts the run. -/
def runOps (now : String) : ChatBoard → List Op → ChatBoard × List Json
  | b, [] => (b, [])
  | b, .create t :: ops =>
    match ChatBoard.create_conversation now b t with
    | .error _ => (b, [])
    | .ok (c, b2, _) =>
      let r := runOps now b2 ops
      (r.1, c.conversation_id :: r.2)
  | b, .delete cid :: ops =>
    runOps now ((ChatBoard.delete_conversation b cid).2.1) ops

/-- Number of create calls in a call sequence. -/
def countCreate : List Op → Int
  | [] => 0
  | .create _ :: ops => countCreate ops + 1
  | .delete _ :: ops => countCreate ops

/-- The ids a call sequence is issued when the counter starts at `n`. -/
def idsFrom : Int → List Op → List Json
  | _, [] => []
  | n, .create _ :: ops => .num n :: idsFrom (n + 1) ops
  | n, .delete _ :: ops => idsFrom n ops

/-! ### Supporting lemmas -/

/-- Decomposition of a list around the first element satisfying `p`,
describing exactly what `delete_conversation` removes. -/
theorem removeFirst_decomp (p : Conversation → Bool) (l : List Conversation)
    (h : l.any p = true) :
    ∃ l1 c l2, l = l1 ++ c :: l2 ∧ p c = true ∧ (∀ x ∈ l1, p x = false) ∧
      removeFirst p l = l1 ++ l2 := by
  induction l with
  | nil => simp at h
  | cons a as ih =>
    cases hp : p a with
    | true =>
      exact ⟨[], a, as, by simp, hp, by simp, by simp [removeFirst, hp]⟩
    | false =>
      have h2 : as.any p = true := by simpa [hp] using h
      obtain ⟨l1, c, l2, he, hc, hl1, hr⟩ := ih h2
      refine ⟨a :: l1, c, l2, by simp [he], hc, ?_, by simp [removeFirst, hp, hr]⟩
      intro x hx
      rcases List.mem_cons.mp hx with h1 | h1
      · simpa [h1] using hp
      · exact hl1 x h1

/-! ### C5 and C6: delete and create -/

/-- C5: `delete_conversation` returns whether a conversation with the
given id exists; on a miss it returns false, changes nothing and writes
nothing; on a hit it returns true, removes exactly the first matching
conversation (all others untouched, ids unchanged) and persists the new
state. -/
theorem delete_conversation_spec (b : ChatBoard) (cid : Int) :
    ((ChatBoard.delete_conversation b cid).1 =
      b.conversations.any (fun conv => eqNum conv.conversation_id cid)) ∧
    ((ChatBoard.delete_conversation b cid).1 = false →
      ChatBoard.delete_conversation b cid = (false, b, [])) ∧
    ((ChatBoard.delete_conversation b cid).1 = true →
      ∃ l1 c l2, b.conversations = l1 ++ c :: l2 ∧
        eqNum c.conversation_id cid = true ∧
        (∀ x ∈ l1, eqNum x.conversation_id cid = false) ∧
        (ChatBoard.delete_conversation b cid).2.1 =
          ChatBoard.mk (l1 ++ l2) b.current_user b.next_conversation_id ∧
        (ChatBoard.delete_conversation b cid).2.2 =
          [ChatBoard.save_data (ChatBoard.delete_conversation b cid).2.1]) := by
  obtain ⟨cs, u, nx⟩ := b
  cases hany : cs.any (fun conv => eqNum conv.conversation_id cid) with
  | false =>
    refine ⟨?_, ?_, ?_⟩ <;>
      simp [ChatBoard.delete_conversation, hany]
  | true =>
    obtain ⟨l1, c, l2, he, hc, hl1, hr⟩ :=
      removeFirst_decomp (fun conv => eqNum conv.conversation_id cid) cs hany
    refine ⟨?_, ?_, ?_⟩ <;>
      simp [ChatBoard.delete_conversation, hany]
    exact ⟨l1, c, l2, he, hc, hl1, by simp [hr]⟩

/-- C5 witness: deleting the only conversation (id 1) from a concrete
board removes it and persists. -/
theorem delete_conversation_spec_witness :
    ∃ l1 c l2,
      (ChatBoard.mk [Conversation.mk (Json.str "t") (Json.num 1) (Json.str "d") []]
          none (Json.num 2)).conversations = l1 ++ c :: l2 ∧
      eqNum c.conversation_id 1 = true ∧
      (∀ x ∈ l1, eqNum x.conversation_id 1 = false) ∧
      (ChatBoard.delete_conversation
          (ChatBoard.mk [Conversation.mk (Json.str "t") (Json.num 1) (Json.str "d") []]
            none (Json.num 2)) 1).2.1 =
        ChatBoard.mk (l1 ++ l2)
          (ChatBoard.mk [Conversation.mk (Json.str "t") (Json.num 1) (Json.str "d") []]
            none (Json.num 2)).current_user
          (ChatBoard.mk [Conversation.mk (Json.str "t") (Json.num 1) (Json.str "d") []]
            none (Json.num 2)).next_conversation_id ∧
      (ChatBoard.delete_conversation
          (ChatBoard.mk [Conversation.mk (Json.str "t") (Json.num 1) (Json.str "d") []]
            none (Json.num 2)) 1).2.2 =
        [ChatBoard.save_data (ChatBoard.delete_conversation
          (ChatBoard.mk [Conversation.mk (Json.str "t") (Json.num 1) (Json.str "d") []]
            none (Json.num 2)) 1).2.1] :=
  (delete_conversation_spec
    (ChatBoard.mk [Conversation.mk (Json.str "t") (Json.num 1) (Json.str "d") []]
      none (Json.num 2)) 1).2.2 rfl

/-- C6: on a state whose counter holds the integer `n` (as it always
does in a program run), `create_conversation` succeeds, returns a new
conversation with the given title, id `n` and no messages, appends it at
the end, bumps the counter to `n + 1`, and persists the new state. -/
theorem create_conversation_spec (now title : String) (b : ChatBoard) (n : Int)
    (h : b.next_conversation_id = Json.num n) :
    ChatBoard.create_conversation now b title =
      .ok (Conversation.mk (Json.str title) (Json.num n) (Json.str now) [],
        ChatBoard.mk
          (b.conversations ++ [Conversation.mk (Json.str title) (Json.num n) (Json.str now) []])
          b.current_user (Json.num (n + 1)),
        [ChatBoard.save_data (ChatBoard.mk
          (b.conversations ++ [Conversation.mk (Json.str title) (Json.num n) (Json.str now) []])
          b.current_user (Json.num (n + 1)))]) := by
  obtain ⟨cs, u, nx⟩ := b
  simp only [ChatBoard.next_conversation_id] at h
  subst h
  rfl

/-- C6 witness: creating a conversation on the fresh board issues id 1. -/
theorem create_conversation_spec_witness :
    ChatBoard.create_conversation "ts" (ChatBoard.mk [] none (Json.num 1)) "hello" =
      .ok (Conversation.mk (Json.str "hello") (Json.num 1) (Json.str "ts") [],
        ChatBoard.mk
          ((ChatBoard.mk [] none (Json.num 1)).conversations ++
            [Conversation.mk (Json.str "hello") (Json.num 1) (Json.str "ts") []])
          (ChatBoard.mk [] none (Json.num 1)).current_user (Json.num (1 + 1)),
        [ChatBoard.save_data (ChatBoard.mk
          ((ChatBoard.mk [] none (Json.num 1)).conversations ++
            [Conversation.mk (Json.str "hello") (Json.num 1) (Json.str "ts") []])
          (ChatBoard.mk [] none (Json.num 1)).current_user (Json.num (1 + 1)))]) :=
  create_conversation_spec "ts" "hello" (ChatBoard.mk [] none (Json.num 1)) 1 rfl

/-! ### C2 and C9: post_message and usernames -/

/-- C2 counterexample: with `current_user` set to the empty string, a
post to an existing conversation returns false, so "conversation exists
and current_user is set" does not imply success. -/
theorem post_message_empty_username_counterexample :
    (ChatBoard.get_conversation
        (ChatBoard.mk [Conversation.mk (Json.str "t") (Json.num 1) (Json.str "d") []]
          (some "") (Json.num 2)) 1).isSome = true ∧
    (ChatBoard.mk [Conversation.mk (Json.str "t") (Json.num 1) (Json.str "d") []]
        (some "") (Json.num 2)).current_user.isSome = true ∧
    (ChatBoard.post_message "ts"
        (ChatBoard.mk [Conversation.mk (Json.str "t") (Json.num 1) (Json.str "d") []]
          (some "") (Json.num 2)) 1 "hi").1 = false :=
  ⟨rfl, rfl, rfl⟩

/-- C2 (amended): `post_message` returns true iff a conversation with the
given id exists and `current_user` holds a non-empty username; whenever
it returns false the state is unchanged and nothing is written. -/
theorem post_message_success_iff (now : String) (b : ChatBoard) (cid : Int)
    (content : String) :
    ((ChatBoard.post_message now b cid content).1 = true ↔
      (ChatBoard.get_conversation b cid).isSome = true ∧
        ∃ u, b.current_user = some u ∧ u ≠ "") ∧
    ((ChatBoard.post_message now b cid content).1 = false →
      (ChatBoard.post_message now b cid content).2.1 = b ∧
      (ChatBoard.post_message now b cid content).2.2 = []) := by
  cases hg : ChatBoard.get_conversation b cid with
  | none =>
    cases hu : b.current_user with
    | none => simp [ChatBoard.post_message, hg, hu]
    | some u => simp [ChatBoard.post_message, hg, hu]
  | some c =>
    cases hu : b.current_user with
    | none => simp [ChatBoard.post_message, hg, hu]
    | some u =>
      by_cases hue : u = ""
      · subst hue
        simp [ChatBoard.post_message, hg, hu]
      · simp [ChatBoard.post_message, hg, hu, hue]

/-- C2 witness: a post with an existing conversation and a non-empty
username succeeds. -/
theorem post_message_success_iff_witness :
    (ChatBoard.post_message "ts"
        (ChatBoard.mk [Conversation.mk (Json.str "t") (Json.num 1) (Json.str "d") []]
          (some "alice") (Json.num 2)) 1 "hi").1 = true :=
  (post_message_success_iff "ts"
      (ChatBoard.mk [Conversation.mk (Json.str "t") (Json.num 1) (Json.str "d") []]
        (some "alice") (Json.num 2)) 1 "hi").1.mpr
    ⟨rfl, "alice", rfl, by decide⟩

/-- C9: `set_username ""` stores the empty string in `current_user`, yet
every subsequent `post_message` returns false, exactly as it does when no
username is set. -/
theorem empty_username_post_fails (now : String) (b : ChatBoard) (cid : Int)
    (content : String) :
    (ChatBoard.set_username b "").1.current_user = some "" ∧
    (ChatBoard.post_message now (ChatBoard.set_username b "").1 cid content).1 = false ∧
    (ChatBoard.post_message now (ChatBoard.set_username b "").1 cid content).1 =
      (ChatBoard.post_message now
        (ChatBoard.mk b.conversations none b.next_conversation_id) cid content).1 := by
  obtain ⟨cs, u, nx⟩ := b
  cases hg : ChatBoard.get_conversation (ChatBoard.mk cs (some "") nx) cid with
  | none =>
    have hg2 : ChatBoard.get_conversation (ChatBoard.mk cs none nx) cid = none := hg
    simp [ChatBoard.set_username, ChatBoard.post_message, hg, hg2]
  | some c =>
    have hg2 : ChatBoard.get_conversation (ChatBoard.mk cs none nx) cid = some c := hg
    simp [ChatBoard.set_username, ChatBoard.post_message, hg, hg2]

/-! ### C4 and C10: persistence side effects and the session user -/

/-- C4 counterexample: `set_username` changes the in-memory state (it
sets `current_user`) but performs no file write. -/
theorem set_username_mutates_without_persist :
    (ChatBoard.set_username (ChatBoard.mk [] none (Json.num 1)) "alice").1 ≠
        ChatBoard.mk [] none (Json.num 1) ∧
    (ChatBoard.set_username (ChatBoard.mk [] none (Json.num 1)) "alice").2 = [] := by
  refine ⟨?_, rfl⟩
  intro h
  have h2 := congrArg ChatBoard.current_user h
  simp [ChatBoard.set_username] at h2

/-- C4 (amended): `create_conversation`, a removing
`delete_conversation`, and a successful `post_message` each write exactly
the full serialized final state before returning, while `set_username`
never writes. -/
theorem mutating_ops_persist (now title content : String) (b : ChatBoard)
    (cid : Int) :
    (∀ c b2 w, ChatBoard.create_conversation now b title = .ok (c, b2, w) →
      w = [ChatBoard.save_data b2]) ∧
    ((ChatBoard.delete_conversation b cid).1 = true →
      (ChatBoard.delete_conversation b cid).2.2 =
        [ChatBoard.save_data (ChatBoard.delete_conversation b cid).2.1]) ∧
    ((ChatBoard.post_message now b cid content).1 = true →
      (ChatBoard.post_message now b cid content).2.2 =
        [ChatBoard.save_data (ChatBoard.post_message now b cid content).2.1]) ∧
    (∀ username, (ChatBoard.set_username b username).2 = []) := by
  refine ⟨?_, ?_, ?_, fun _ => rfl⟩
  · intro c b2 w h
    cases hadd : pyAddOne b.next_conversation_id with
    | error e => simp [ChatBoard.create_conversation, hadd] at h
    | ok nid =>
      simp [ChatBoard.create_conversation, hadd] at h
      simp [h.2.1.symm, h.2.2]
  · cases hany : b.conversations.any (fun conv => eqNum conv.conversation_id cid) with
    | false => simp [ChatBoard.delete_conversation, hany]
    | true => simp [ChatBoard.delete_conversation, hany]
  · cases hg : ChatBoard.get_conversation b cid with
    | none => simp [ChatBoard.post_message, hg]
    | some c =>
      cases hu : b.current_user with
      | none => simp [ChatBoard.post_message, hg, hu]
      | some u =>
        by_cases hue : u = ""
        · subst hue; simp [ChatBoard.post_message, hg, hu]
        · simp [ChatBoard.post_message, hg, hu, hue]

/-- C4 witness: a removing delete on a concrete board writes the
serialized final state. -/
theorem mutating_ops_persist_witness :
    (ChatBoard.delete_conversation
        (ChatBoard.mk [Conversation.mk (Json.str "t") (Json.num 1) (Json.str "d") []]
          none (Json.num 2)) 1).2.2 =
      [ChatBoard.save_data (ChatBoard.delete_conversation
        (ChatBoard.mk [Conversation.mk (Json.str "t") (Json.num 1) (Json.str "d") []]
          none (Json.num 2)) 1).2.1] :=
  (mutating_ops_persist "ts" "x" "y"
      (ChatBoard.mk [Conversation.mk (Json.str "t") (Json.num 1) (Json.str "d") []]
        none (Json.num 2)) 1).2.1 rfl

/-- C10: the document written by `save_data` holds exactly the two keys
`conversations` and `next_conversation_id` (never the session user), and
a freshly constructed board has `current_user` unset whatever the
storage file contained. -/
theorem current_user_not_persisted (b : ChatBoard) (now : String) (fs : FileState) :
    (∃ convsJson, ChatBoard.save_data b =
      Json.obj [("conversations", convsJson),
                ("next_conversation_id", b.next_conversation_id)]) ∧
    (∀ b2, ChatBoard.init now fs = .ok b2 → b2.current_user = none) := by
  refine ⟨⟨.arr (b.conversations.map Conversation.to_dict), rfl⟩, ?_⟩
  intro b2 h
  cases fs with
  | absent =>
    simp [ChatBoard.init, ChatBoard.load_data] at h
    simp [h.symm]
  | unparseable =>
    simp [ChatBoard.init, ChatBoard.load_data] at h
    simp [h.symm]
  | parsed j =>
    cases hl : ChatBoard.loadParsed now j with
    | ok p =>
      simp [ChatBoard.init, ChatBoard.load_data, hl] at h
      simp [h.symm]
    | error e =>
      cases e <;> simp [ChatBoard.init, ChatBoard.load_data, hl] at h <;> simp [h.symm]

/-- C10 witness: constructing the board with no storage file leaves the
session user unset. -/
theorem current_user_not_persisted_witness :
    (ChatBoard.mk [] none (Json.num 1)).current_user = none :=
  (current_user_not_persisted (ChatBoard.mk [] none (Json.num 1)) "ts"
      FileState.absent).2 (ChatBoard.mk [] none (Json.num 1)) rfl

/-! ### C7 and C8: loading the storage file -/

/-- C7 counterexample: a malformed storage file that parses as JSON but
is not an object (here a top-level array) makes `data.get` raise an
`AttributeError`, which the `try` block does not catch, so constructing
the board crashes. -/
theorem load_malformed_raises :
    ChatBoard.init "ts" (.parsed (.arr [])) = .error .attributeError := rfl

/-- C7 (amended): the load recovers with a diagnostic and an empty
conversation list exactly when the file fails to parse as JSON or a
record is missing a required key (`KeyError`); those two exception kinds
never escape the constructor. Other malformed structures raise uncaught
exceptions (see the counterexample). -/
theorem load_data_recovery (now : String) (j : Json) :
    (ChatBoard.init now .unparseable = .ok (ChatBoard.mk [] none (Json.num 1))) ∧
    (ChatBoard.loadParsed now j = .error .keyError →
      ChatBoard.init now (.parsed j) = .ok (ChatBoard.mk [] none (Json.num 1))) ∧
    (∀ fs, ChatBoard.init now fs ≠ .error .keyError ∧
      ChatBoard.init now fs ≠ .error .jsonDecodeError) := by
  refine ⟨rfl, ?_, ?_⟩
  · intro h
    simp [ChatBoard.init, ChatBoard.load_data, h]
  · intro fs
    cases fs with
    | absent => simp [ChatBoard.init, ChatBoard.load_data]
    | unparseable => simp [ChatBoard.init, ChatBoard.load_data]
    | parsed j2 =>
      cases hl : ChatBoard.loadParsed now j2 with
      | ok p => simp [ChatBoard.init, ChatBoard.load_data, hl]
      | error e => cases e <;> simp [ChatBoard.init, ChatBoard.load_data, hl]

/-- C7 witness: a file whose conversation record is a dict missing the
required `title` key raises `KeyError`, which is caught: the board comes
up empty. -/
theorem load_data_recovery_witness :
    ChatBoard.init "ts" (.parsed (.obj [("conversations", .arr [.obj []])])) =
      .ok (ChatBoard.mk [] none (Json.num 1)) :=
  (load_data_recovery "ts" (.obj [("conversations", .arr [.obj []])])).2.1 rfl

/-- C8: with no storage file the board starts empty with counter 1; a
parsed object without the `conversations` key yields an empty
conversation list; one without the `next_conversation_id` key yields
counter 1 whenever construction succeeds. -/
theorem init_defaults (now : String) (fields : List (String × Json)) :
    (ChatBoard.init now .absent = .ok (ChatBoard.mk [] none (Json.num 1))) ∧
    (dictFind fields "conversations" = none →
      ChatBoard.init now (.parsed (.obj fields)) =
        .ok (ChatBoard.mk [] none (dictGetD fields "next_conversation_id" (Json.num 1)))) ∧
    (dictFind fields "next_conversation_id" = none →
      ∀ b2, ChatBoard.init now (.parsed (.obj fields)) = .ok b2 →
        b2.next_conversation_id = Json.num 1) := by
  refine ⟨rfl, ?_, ?_⟩
  · intro h
    simp [ChatBoard.init, ChatBoard.load_data, ChatBoard.loadParsed, dictGetD, h,
      pyIter, mapExcept]
  · intro h b2 hinit
    cases hi : pyIter (dictGetD fields "conversations" (.arr [])) with
    | error e =>
      cases e <;>
        simp [ChatBoard.init, ChatBoard.load_data, ChatBoard.loadParsed, hi] at hinit <;>
        simp [hinit.symm]
    | ok items =>
      cases hm : mapExcept (Conversation.from_dict now) items with
      | error e =>
        cases e <;>
          simp [ChatBoard.init, ChatBoard.load_data, ChatBoard.loadParsed, hi, hm]
            at hinit <;>
          simp [hinit.symm]
      | ok convs =>
        simp [ChatBoard.init, ChatBoard.load_data, ChatBoard.loadParsed, hi, hm]
          at hinit
        simp [hinit.symm, dictGetD, h]

/-- C8 witness: a file holding only `next_conversation_id` comes up with
no conversations and that counter. -/
theorem init_defaults_witness :
    ChatBoard.init "ts" (.parsed (.obj [("next_conversation_id", Json.num 7)])) =
      .ok (ChatBoard.mk [] none
        (dictGetD [("next_conversation_id", Json.num 7)] "next_conversation_id"
          (Json.num 1))) :=
  (init_defaults "ts" [("next_conversation_id", Json.num 7)]).2.1 rfl

/-! ### C1: id allocation over interleaved create/delete calls -/

/-- `countCreate` is never negative. -/
theorem countCreate_nonneg (ops : List Op) : 0 ≤ countCreate ops := by
  induction ops with
  | nil => simp [countCreate]
  | cons op ops ih => cases op <;> simp [countCreate] <;> omega

/-- `delete_conversation` never touches the id counter. -/
theorem delete_preserves_counter (b : ChatBoard) (cid : Int) :
    (ChatBoard.delete_conversation b cid).2.1.next_conversation_id =
      b.next_conversation_id := by
  unfold ChatBoard.delete_conversation
  split <;> rfl

/-- Running a call sequence from a counter holding `n` issues exactly the
ids `idsFrom n ops` and leaves the counter at `n` plus the number of
create calls. -/
theorem runOps_spec (now : String) (ops : List Op) :
    ∀ (b : ChatBoard) (n : Int), b.next_conversation_id = Json.num n →
      (runOps now b ops).2 = idsFrom n ops ∧
      (runOps now b ops).1.next_conversation_id =
        Json.num (n + countCreate ops) := by
  induction ops with
  | nil =>
    intro b n h
    simpa [runOps, idsFrom, countCreate] using h
  | cons op ops ih =>
    intro b n h
    cases op with
    | create t =>
      obtain ⟨cs, u, nx⟩ := b
      simp only [ChatBoard.next_conversation_id] at h
      subst h
      have hnext : (ChatBoard.mk (cs ++ [Conversation.mk (Json.str t) (Json.num n)
          (Json.str now) []]) u (Json.num (n + 1))).next_conversation_id =
          Json.num (n + 1) := rfl
      obtain ⟨ih1, ih2⟩ := ih _ (n + 1) hnext
      refine ⟨?_, ?_⟩
      · simp [runOps, ChatBoard.create_conversation, pyAddOne, idsFrom, ih1]
      · have harith : n + 1 + countCreate ops = n + (countCreate ops + 1) := by omega
        simp [runOps, ChatBoard.create_conversation, pyAddOne, countCreate, ih2, harith]
    | delete cid =>
      have hdel : (ChatBoard.delete_conversation b cid).2.1.next_conversation_id =
          Json.num n := by rw [delete_preserves_counter, h]
      obtain ⟨ih1, ih2⟩ := ih _ n hdel
      exact ⟨by simpa [runOps, idsFrom] using ih1,
        by simpa [runOps, countCreate] using ih2⟩

/-- Every id in `idsFrom n ops` is an integer in `[n, n + countCreate ops)`. -/
theorem idsFrom_mem (ops : List Op) :
    ∀ (n : Int) (j : Json), j ∈ idsFrom n ops →
      ∃ m, j = Json.num m ∧ n ≤ m ∧ m < n + countCreate ops := by
  induction ops with
  | nil => intro n j hj; simp [idsFrom] at hj
  | cons op ops ih =>
    intro n j hj
    cases op with
    | create t =>
      rcases List.mem_cons.mp (by simpa [idsFrom] using hj) with h1 | h1
      · have hc := countCreate_nonneg ops
        exact ⟨n, h1, le_refl n, by simp [countCreate]; omega⟩
      · obtain ⟨m, hm, h2, h3⟩ := ih (n + 1) j h1
        exact ⟨m, hm, by omega, by simp [countCreate]; omega⟩
    | delete cid =>
      obtain ⟨m, hm, h2, h3⟩ := ih n j (by simpa [idsFrom] using hj)
      exact ⟨m, hm, h2, by simp [countCreate]; omega⟩

/-- The issued id list is strictly increasing. -/
theorem idsFrom_pairwise (ops : List Op) :
    ∀ n : Int, (idsFrom n ops).Pairwise (fun a c => jltb a c = true) := by
  induction ops with
  | nil => intro n; simp [idsFrom]
  | cons op ops ih =>
    intro n
    cases op with
    | delete cid => simpa [idsFrom] using ih n
    | create t =>
      simp only [idsFrom, List.pairwise_cons]
      refine ⟨?_, ih (n + 1)⟩
      intro j hj
      obtain ⟨m, rfl, h1, h2⟩ := idsFrom_mem ops (n + 1) j hj
      simp [jltb]
      omega

/-- C1: over any interleaving of create and delete calls starting from a
counter holding the integer `n`, the returned conversation ids are
pairwise strictly increasing (hence never repeated), and the final
counter is strictly greater than every id ever issued. -/
theorem create_ids_strictly_increasing (now : String) (b : ChatBoard) (n : Int)
    (ops : List Op) (h : b.next_conversation_id = Json.num n) :
    (runOps now b ops).2.Pairwise (fun a c => jltb a c = true) ∧
    ∀ j ∈ (runOps now b ops).2,
      jltb j (runOps now b ops).1.next_conversation_id = true := by
  obtain ⟨h1, h2⟩ := runOps_spec now ops b n h
  rw [h1, h2]
  refine ⟨idsFrom_pairwise ops n, ?_⟩
  intro j hj
  obtain ⟨m, rfl, hm1, hm2⟩ := idsFrom_mem ops n j hj
  simp [jltb]
  omega

/-- C1 witness: from the fresh board, create, delete, create issues the
ids 1 then 2, strictly below the final counter 3. -/
theorem create_ids_strictly_increasing_witness :
    (runOps "ts" (ChatBoard.mk [] none (Json.num 1))
        [Op.create "a", Op.delete 1, Op.create "b"]).2.Pairwise
      (fun a c => jltb a c = true) ∧
    ∀ j ∈ (runOps "ts" (ChatBoard.mk [] none (Json.num 1))
        [Op.create "a", Op.delete 1, Op.create "b"]).2,
      jltb j (runOps "ts" (ChatBoard.mk [] none (Json.num 1))
        [Op.create "a", Op.delete 1, Op.create "b"]).1.next_conversation_id = true :=
  create_ids_strictly_increasing "ts" (ChatBoard.mk [] none (Json.num 1)) 1
    [Op.create "a", Op.delete 1, Op.create "b"] rfl

/-! ### C3: serialization round trip -/

/-- A serialized message parses back to itself as long as its timestamp
is truthy (the constructor replaces falsy timestamps by the current
time; timestamps written by the program are `strftime` output and hence
non-empty). -/
theorem message_round_trip (now : String) (m : Message)
    (h : m.timestamp.isTruthy = true) :
    Message.from_dict now (Message.to_dict m) = .ok m := by
  obtain ⟨a, c, t⟩ := m
  simp only [Message.timestamp] at h
  simp [Message.from_dict, Message.to_dict, pySubscript, dictFind, h]

/-- Serialized message lists parse back to themselves. -/
theorem messages_round_trip (now : String) (ms : List Message)
    (h : ∀ m ∈ ms, m.timestamp.isTruthy = true) :
    mapExcept (Message.from_dict now) (ms.map Message.to_dict) = .ok ms := by
  induction ms with
  | nil => rfl
  | cons m ms ih =>
    have h1 := message_round_trip now m (h m (by simp))
    have h2 := ih (fun x hx => h x (by simp [hx]))
    simp [mapExcept, h1, h2]

/-- A serialized conversation parses back to itself. -/
theorem conversation_round_trip (now : String) (c : Conversation)
    (h : ∀ m ∈ c.messages, m.timestamp.isTruthy = true) :
    Conversation.from_dict now (Conversation.to_dict c) = .ok c := by
  obtain ⟨t, cid, ca, ms⟩ := c
  simp only [Conversation.messages] at h
  simp [Conversation.from_dict, Conversation.to_dict, pySubscript, dictFind, pyIter,
    messages_round_trip now ms h]

/-- Serialized conversation lists parse back to themselves. -/
theorem conversations_round_trip (now : String) (cs : List Conversation)
    (h : ∀ c ∈ cs, ∀ m ∈ c.messages, m.timestamp.isTruthy = true) :
    mapExcept (Conversation.from_dict now) (cs.map Conversation.to_dict) = .ok cs := by
  induction cs with
  | nil => rfl
  | cons c cs ih =>
    have h1 := conversation_round_trip now c (h c (by simp))
    have h2 := ih (fun x hx => h x (by simp [hx]))
    simp [mapExcept, h1, h2]

/-- C3: loading the document written by `save_data` reconstructs the same
conversation list (same ids, titles, timestamps and message sequences in
the same order) and the same counter, for every state whose message
timestamps are truthy, as they always are in a program run (`strftime`
output is never empty). -/
theorem save_load_round_trip (now : String) (b : ChatBoard)
    (h : ∀ c ∈ b.conversations, ∀ m ∈ c.messages, m.timestamp.isTruthy = true) :
    ChatBoard.init now (.parsed (ChatBoard.save_data b)) =
      .ok (ChatBoard.mk b.conversations none b.next_conversation_id) := by
  simp [ChatBoard.init, ChatBoard.load_data, ChatBoard.loadParsed, ChatBoard.save_data,
    dictGetD, dictFind, pyIter, conversations_round_trip now b.conversations h]

/-- C3 witness: a concrete board with one message survives the round
trip. -/
theorem save_load_round_trip_witness :
    ChatBoard.init "n2" (.parsed (ChatBoard.save_data
        (ChatBoard.mk [Conversation.mk (Json.str "t") (Json.num 1) (Json.str "d")
          [Message.mk (Json.str "a") (Json.str "x") (Json.str "w")]]
          (some "bob") (Json.num 5)))) =
      .ok (ChatBoard.mk
        (ChatBoard.mk [Conversation.mk (Json.str "t") (Json.num 1) (Json.str "d")
          [Message.mk (Json.str "a") (Json.str "x") (Json.str "w")]]
          (some "bob") (Json.num 5)).conversations
        none
        (ChatBoard.mk [Conversation.mk (Json.str "t") (Json.num 1) (Json.str "d")
          [Message.mk (Json.str "a") (Json.str "x") (Json.str "w")]]
          (some "bob") (Json.num 5)).next_conversation_id) :=
  save_load_round_trip "n2"
    (ChatBoard.mk [Conversation.mk (Json.str "t") (Json.num 1) (Json.str "d")
      [Message.mk (Json.str "a") (Json.str "x") (Json.str "w")]]
      (some "bob") (Json.num 5))
    (by decide)

/-! ### Reachable states have truthy timestamps

These lemmas justify the hypothesis of the round-trip theorem: the only
operations that change message lists keep every stored timestamp truthy,
because `strftime` output is a non-empty string. -/

/-- Appending a truthy-timestamped message preserves timestamp
truthiness across the conversation list. -/
theorem appendToFirst_truthy (p : Conversation → Bool) (msg : Message)
    (hm : msg.timestamp.isTruthy = true) (l : List Conversation)
    (h : ∀ c ∈ l, ∀ m ∈ c.messages, m.timestamp.isTruthy = true) :
    ∀ c ∈ appendToFirst p msg l, ∀ m ∈ c.messages, m.timestamp.isTruthy = true := by
  induction l with
  | nil => simp [appendToFirst]
  | cons a as ih =>
    intro c hc m hmem
    by_cases hp : p a = true
    · simp [appendToFirst, hp] at hc
      rcases hc with hc | hc
      · subst hc
        simp at hmem
        rcases hmem with hmem | hmem
        · exact h a (by simp) m hmem
        · subst hmem; exact hm
      · exact h c (by simp [hc]) m hmem
    · simp [appendToFirst, hp] at hc
      rcases hc with hc | hc
      · exact h c (by simp [hc]) m hmem
      · exact ih (fun x hx => h x (by simp [hx])) c hc m hmem

/-- Deleting only ever drops conversations. -/
theorem removeFirst_subset (p : Conversation → Bool) (l : List Conversation) :
    ∀ c ∈ removeFirst p l, c ∈ l := by
  induction l with
  | nil => simp [removeFirst]
  | cons a as ih =>
    intro c hc
    by_cases hp : p a = true
    · simp [removeFirst, hp] at hc
      simp [hc]
    · simp [removeFirst, hp] at hc
      rcases hc with hc | hc
      · simp [hc]
      · simp [ih c hc]

/-- When the clock string is non-empty, `post_message`,
`create_conversation` and `delete_conversation` all preserve truthiness
of every stored message timestamp, so every state a program run reaches
satisfies the round-trip hypothesis. -/
theorem ops_preserve_truthy_timestamps (now : String) (hn : now ≠ "")
    (b : ChatBoard) (cid : Int) (content title : String)
    (h : ∀ c ∈ b.conversations, ∀ m ∈ c.messages, m.timestamp.isTruthy = true) :
    (∀ c ∈ (ChatBoard.post_message now b cid content).2.1.conversations,
      ∀ m ∈ c.messages, m.timestamp.isTruthy = true) ∧
    (∀ conv b2 w, ChatBoard.create_conversation now b title = .ok (conv, b2, w) →
      ∀ c ∈ b2.conversations, ∀ m ∈ c.messages, m.timestamp.isTruthy = true) ∧
    (∀ c ∈ (ChatBoard.delete_conversation b cid).2.1.conversations,
      ∀ m ∈ c.messages, m.timestamp.isTruthy = true) := by
  refine ⟨?_, ?_, ?_⟩
  · cases hg : ChatBoard.get_conversation b cid with
    | none => simpa [ChatBoard.post_message, hg] using h
    | some c0 =>
      cases hu : b.current_user with
      | none => simpa [ChatBoard.post_message, hg, hu] using h
      | some u =>
        by_cases hue : u = ""
        · subst hue; simpa [ChatBoard.post_message, hg, hu] using h
        · have hmsg : (Message.mk (Json.str u) (Json.str content)
              (Json.str now)).timestamp.isTruthy = true := by
            simp [Json.isTruthy, hn]
          simp only [ChatBoard.post_message, hg, hu, hue, if_neg hue]
          exact appendToFirst_truthy _ _ hmsg b.conversations h
  · intro conv b2 w hcr
    cases hadd : pyAddOne b.next_conversation_id with
    | error e => simp [ChatBoard.create_conversation, hadd] at hcr
    | ok nid =>
      simp [ChatBoard.create_conversation, hadd] at hcr
      intro c hc m hmem
      rw [hcr.2.1.symm] at hc
      simp at hc
      rcases hc with hc | hc
      · exact h c hc m hmem
      · subst hc; simp at hmem
  · cases hany : b.conversations.any (fun conv => eqNum conv.conversation_id cid) with
    | false => simpa [ChatBoard.delete_conversation, hany] using h
    | true =>
      intro c hc m hmem
      simp [ChatBoard.delete_conversation, hany] at hc
      exact h c (removeFirst_subset _ _ c hc) m hmem
